import Mathlib

/-!
Verification development for the KEGG gene/pathway pipeline in
src/pulihack.py.  The Python source is shallowly embedded: pure string
manipulation is modelled on `List Char` so that every definition is
executable by kernel reduction; network I/O and the external XML parser
are modelled as explicit function parameters; the in-memory and durable
caches are modelled as explicit state threaded through the functions;
concurrency nondeterminism (completion order of a batch) is externalised
as an input.  Definition names follow the Python source.
-/

namespace Pulihack

/-! ## String primitives (models of the Python str operations used) -/

/-- Membership of a contiguous substring, the Python `pat in s` test on
strings, on character lists. -/
def hasSubstrAux (pat : List Char) : List Char → Bool
  | [] => pat.isEmpty
  | c :: t => pat.isPrefixOf (c :: t) || hasSubstrAux pat t

/-- Python `pat in s` for strings. -/
def strContains (s pat : String) : Bool :=
  hasSubstrAux pat.data s.data

/-- Python `s.startswith(pre)`. -/
def strStartsWith (s pre : String) : Bool :=
  pre.data.isPrefixOf s.data

/-- Python `s.strip()` on character lists (over the ASCII whitespace
characters, which is what the repository's inputs use). -/
def trimChars (s : List Char) : List Char :=
  ((s.dropWhile Char.isWhitespace).reverse.dropWhile Char.isWhitespace).reverse

/-- Python `s.strip()`. -/
def pyStrip (s : String) : String :=
  ⟨trimChars s.data⟩

/-- Python `s.split(sep)` for a one-character separator, on character lists. -/
def splitOnChar (sep : Char) : List Char → List (List Char)
  | [] => [[]]
  | c :: t =>
    match splitOnChar sep t with
    | [] => [[]]
    | r :: rs => if c = sep then [] :: r :: rs else (c :: r) :: rs

/-- Python `s.split(sep)` for a one-character separator. -/
def pySplit (s : String) (sep : Char) : List String :=
  (splitOnChar sep s.data).map fun l => ⟨l⟩

/-- Python `s.partition(sep)[2]` for a one-character separator: the text
after the first occurrence of the separator, empty when it is absent. -/
def afterFirstSep (sep : Char) : List Char → List Char
  | [] => []
  | c :: t => if c = sep then t else afterFirstSep sep t

/-- Python `s.partition("\t")[2]`. -/
def pyPartitionAfterTab (s : String) : String :=
  ⟨afterFirstSep '\t' s.data⟩

/-- Python `s.replace(pat, rep)` (all non-overlapping occurrences, scanning
left to right).  The fuel argument makes the recursion structural; the scan
advances at least one character per step, so fuel = length of the scanned
list is always enough. -/
def replaceAllFuel (pat rep : List Char) : Nat → List Char → List Char
  | 0, s => s
  | _ + 1, [] => []
  | fuel + 1, c :: t =>
    if (!pat.isEmpty) && pat.isPrefixOf (c :: t) then
      rep ++ replaceAllFuel pat rep fuel ((c :: t).drop pat.length)
    else
      c :: replaceAllFuel pat rep fuel t

/-- Python `s.replace(pat, rep)` (the source only uses nonempty patterns). -/
def pyReplace (s pat rep : String) : String :=
  ⟨replaceAllFuel pat.data rep.data s.data.length s.data⟩

/-- Helper for Python `sep.join(strings)` with a one-character separator. -/
def joinChar (sep : Char) : List (List Char) → List Char
  | [] => []
  | [x] => x
  | x :: y :: t => x ++ sep :: joinChar sep (y :: t)

/-- Python `"/".join(strings)`. -/
def joinSlash (l : List String) : String :=
  ⟨joinChar '/' (l.map String.data)⟩

/-- Python `s.split(" ")[0]` (first token before the first space). -/
def firstSpaceToken (s : String) : String :=
  ⟨(splitOnChar ' ' s.data).headD []⟩

/-! ## Data model -/

/-- One relation record produced by parse_xml_worker (pulihack.py lines
315-320): the dict with keys entry_id, entry_name, relation_type, pathway.
entry_id is the raw entry attribute of the other endpoint (an XML `get`
result, hence optional); pathway is the pathway title (the text of the
first name element, which ElementTree reports as optional). -/
structure PathwayRelation where
  entry_id : Option String
  entry_name : String
  relation_type : String
  pathway : Option String
deriving DecidableEq

/-- The deduplication key used by parse_xml_worker (line 312). -/
def relationKey (r : PathwayRelation) : Option String × String × String :=
  (r.entry_id, r.entry_name, r.relation_type)

/-- An `entry` element of a parsed KGML document: the id, name and type
attributes as ElementTree's `get` reports them (type defaults to ""
via `entry.get('type', '')`, so it is modelled as a plain string). -/
structure KgmlEntry where
  id : Option String
  name : Option String
  etype : String
deriving DecidableEq

/-- A `relation` element of a parsed KGML document with its nested
`subtype` name attributes. -/
structure KgmlRelation where
  entry1 : Option String
  entry2 : Option String
  subtypes : List (Option String)
deriving DecidableEq

/-- A structurally parsed KGML document: what ElementTree hands to the
second half of parse_xml_worker.  nameTexts are the text contents of the
`.//name` elements in document order. -/
structure KgmlDoc where
  nameTexts : List (Option String)
  entries : List KgmlEntry
  relations : List KgmlRelation
deriving DecidableEq

/-- The triple returned by parse_xml_worker (gene_id, relations,
entry_names); the entry_names dict is modelled as an insertion-ordered
association list. -/
structure ParseResult where
  gene_id : Option String
  relations : List PathwayRelation
  entry_names : List (String × String)
deriving DecidableEq

/-- The empty parse result `(None, [], {})` returned on every failure path. -/
def emptyParse : ParseResult :=
  ⟨none, [], []⟩

/-- Python dict assignment `m[k] = v` on an insertion-ordered association
list: an existing key keeps its position and gets the new value, a new key
is appended at the end. -/
def dictInsert {β : Type} (m : List (String × β)) (k : String) (v : β) : List (String × β) :=
  if m.any (fun p => p.1 == k) then m.map (fun p => if p.1 == k then (p.1, v) else p)
  else m ++ [(k, v)]

/-- Python dict lookup `m.get(k)` on an association list. -/
def lookupDict {β : Type} (m : List (String × β)) (k : String) : Option β :=
  (m.find? (fun p => p.1 == k)).map Prod.snd

/-- Python truthiness of an optional string (`not x` for `x` that is None
or a string): false exactly for None and "". -/
def optFalsy : Option String → Bool
  | none => true
  | some s => s == ""

/-! ## CacheStore -/

/-- Durable key-to-value store for one payload type, addressed by cache
category (the file-name prefix of get_cache_path) and logical key.  The
md5 hash in get_cache_path (line 37) is collision-free on the repository's
keys, so the model addresses the store by the (category, key) pair itself. -/
def DiskStore (α : Type) : Type :=
  String → String → Option α

/-- save_to_disk_cache (lines 40-47): writes data under the category-scoped
key.  The model is the no-I/O-failure behaviour; the code swallows I/O
errors, degrading the write to a no-op. -/
def save_to_disk_cache {α : Type} (disk : DiskStore α) (key : String) (data : α) (cat : String) : DiskStore α :=
  fun p k => if p = cat ∧ k = key then some data else disk p k

/-- load_from_disk_cache (lines 49-58): reads the category-scoped key,
none when absent (or on a swallowed I/O error). -/
def load_from_disk_cache {α : Type} (disk : DiskStore α) (key : String) (cat : String) : Option α :=
  disk cat key

/-- The process-wide mutable cache state used by the modelled functions:
the in-memory api_cache dict and the durable stores touched by the claims
(string payloads under category "api", parse results under "parsed"). -/
structure Caches where
  api_cache : String → Option String
  diskStr : DiskStore String
  diskParsed : DiskStore ParseResult

/-- A simulated process restart: the in-memory layer is cleared, the
durable layers persist. -/
def restart (st : Caches) : Caches :=
  { st with api_cache := fun _ => none }

/-! ## Fetcher -/

/-- Outcome of the network GET in get_with_cache: an HTTP response with a
status and body, a timeout (asyncio.TimeoutError), or any other transport
error. -/
inductive FetchOutcome where
  | response (status : Nat) (text : String)
  | timeout
  | transportError
deriving DecidableEq

/-- get_with_cache (lines 73-103): in-memory lookup, then durable lookup
(promoting a hit into the in-memory layer), then the network request.
A non-200 status, a timeout or a transport error yields "" without
touching either cache; a 200 response is stored in both layers. -/
def get_with_cache (net : String → FetchOutcome) (st : Caches) (url : String) : String × Caches :=
  match st.api_cache url with
  | some cached => (cached, st)
  | none =>
    match load_from_disk_cache st.diskStr url "api" with
    | some disk_data =>
      (disk_data, { st with api_cache := fun u => if u = url then some disk_data else st.api_cache u })
    | none =>
      match net url with
      | FetchOutcome.response status text =>
        if status ≠ 200 then ("", st)
        else
          (text, { st with
            api_cache := fun u => if u = url then some text else st.api_cache u,
            diskStr := save_to_disk_cache st.diskStr url text "api" })
      | FetchOutcome.timeout => ("", st)
      | FetchOutcome.transportError => ("", st)

/-! ## RelationExtractor (parse_xml_worker, lines 238-325) -/

/-- First pass of parse_xml_worker (lines 258-273): collect the
entry_names dict and locate the target gene.  Entries with a falsy id or
name are skipped; a matching entry overwrites the previously found one
(the Python loop keeps reassigning gene_id). -/
def entryStep (gene_id_to_find : String) (acc : List (String × String) × Option String)
    (e : KgmlEntry) : List (String × String) × Option String :=
  if optFalsy e.id || optFalsy e.name then acc
  else
    let entry_id := e.id.getD ""
    let entry_name := e.name.getD ""
    let names := dictInsert acc.1 entry_id entry_name
    if (e.etype == "gene" || e.etype == "ortholog" || e.etype == "")
        && (strContains entry_name gene_id_to_find || strContains entry_id gene_id_to_find) then
      (names, some entry_id)
    else
      (names, acc.2)

/-- Accumulator of the second pass: the dedup set (as the list of keys in
insertion order) and the relations list. -/
structure RelAcc where
  relation_set : List (Option String × String × String)
  relations : List PathwayRelation
deriving DecidableEq

/-- Second pass of parse_xml_worker (lines 280-320): one relation element.
Relations not touching the matched gene are skipped; the other endpoint's
name is resolved through entry_names (Python dict.get with default "");
multi-code names keep only the first space-separated code; non-"hsa:"
codes are discarded; the subtype names are slash-joined (or "association");
the (other_entry_id, other_entry_name, relation_type) triple dedups. -/
def relationStep (title : Option String) (entry_names : List (String × String)) (gene_id : String)
    (acc : RelAcc) (rel : KgmlRelation) : RelAcc :=
  if rel.entry1 ≠ some gene_id ∧ rel.entry2 ≠ some gene_id then acc
  else
    let subtypes := rel.subtypes.filterMap fun o =>
      match o with
      | some s => if s == "" then none else some s
      | none => none
    let other_entry_id := if rel.entry1 = some gene_id then rel.entry2 else rel.entry1
    let other_entry_name :=
      match other_entry_id with
      | some i => (lookupDict entry_names i).getD ""
      | none => ""
    if other_entry_name = "" ∨ other_entry_name = "Unknown" then acc
    else
      let other_entry_name :=
        if strContains other_entry_name " " then firstSpaceToken other_entry_name
        else other_entry_name
      if ¬ strStartsWith other_entry_name "hsa:" then acc
      else
        let relation_type := if subtypes ≠ [] then joinSlash subtypes else "association"
        let relation_key := (other_entry_id, other_entry_name, relation_type)
        if relation_key ∈ acc.relation_set then acc
        else
          ⟨acc.relation_set ++ [relation_key],
           acc.relations ++ [⟨other_entry_id, other_entry_name, relation_type, title⟩]⟩

/-- parse_xml_worker (lines 238-325).  The document text is rejected when
empty or when its stripped form does not start with the XML declaration;
`etParse` stands for ElementTree.fromstring and returns none when parsing
raises (the enclosing try/except turns any exception into the empty
result); a document in which no gene entry matches also yields the empty
result.  The function is total: no failure escapes this boundary. -/
def parse_xml_worker (xml_text : String) (etParse : String → Option KgmlDoc)
    (gene_id_to_find : String) : ParseResult :=
  if xml_text = "" ∨ strStartsWith (pyStrip xml_text) "<?xml" = false then emptyParse
  else
    match etParse xml_text with
    | none => emptyParse
    | some root =>
      let title : Option String :=
        match root.nameTexts with
        | [] => some "Unknown Pathway"
        | t :: _ => t
      let fp := root.entries.foldl (entryStep gene_id_to_find) ([], none)
      match fp.2 with
      | none => emptyParse
      | some gene_id =>
        if gene_id = "" then emptyParse
        else
          let acc := root.relations.foldl (relationStep title fp.1 gene_id) ⟨[], []⟩
          ⟨some gene_id, acc.relations, fp.1⟩

/-! ## PathwayScanner (process_pathway and process_all_pathways) -/

/-- The parse-result cache key of process_pathway (line 330). -/
def pathway_result_key (pathway_url gene_name : String) : String :=
  "pathway_result_" ++ pathway_url ++ "_" ++ gene_name

/-- Line 336: `gene_name.split(':')[1] if ':' in gene_name else gene_name`. -/
def gene_id_to_find (gene_name : String) : String :=
  if gene_name.data.contains ':' then ⟨(splitOnChar ':' gene_name.data).getD 1 []⟩
  else gene_name

/-- process_pathway (lines 327-348): return the cached parse result when
present; otherwise fetch the document, parse it in the worker, store the
result — whatever it is — in the durable "parsed" store and return it.
The boolean records whether fetch/parse work was performed. -/
def process_pathway (net : String → FetchOutcome) (etParse : String → Option KgmlDoc)
    (st : Caches) (pathway_url gene_name : String) : ParseResult × Caches × Bool :=
  match load_from_disk_cache st.diskParsed (pathway_result_key pathway_url gene_name) "parsed" with
  | some disk_data => (disk_data, st, false)
  | none =>
    let fetched := get_with_cache net st pathway_url
    let result := parse_xml_worker fetched.1 etParse (gene_id_to_find gene_name)
    (result,
     { fetched.2 with
       diskParsed := save_to_disk_cache fetched.2.diskParsed
         (pathway_result_key pathway_url gene_name) result "parsed" },
     true)

/-- Tuning constants (lines 19-21). -/
def BATCH_SIZE : Nat := 10

def MIN_REQUIRED_RELATIONS : Nat := 10

def MAX_RELATION_PATHWAYS : Nat := 15

/-- Lines 370-373: the document URLs, truncated to MAX_RELATION_PATHWAYS. -/
def kgml_url (code : String) : String :=
  "https://rest.kegg.jp/get/path:"
    ++ (if code.data.contains ':' then (⟨(splitOnChar ':' code.data).getD 1 []⟩ : String) else code)
    ++ "/kgml"

def pathway_urls (pathway_codes : List String) : List String :=
  (pathway_codes.take MAX_RELATION_PATHWAYS).map kgml_url

/-- The inner as_completed loop of process_all_pathways (lines 395-404)
over one batch, taking the batch's per-document relation lists in
completion order: nonempty results are appended to the accumulator, and
after every document the early-termination threshold is checked; result is
(accumulator, early-termination flag, number of documents consumed). -/
def runBatch (acc : List PathwayRelation) : List (List PathwayRelation) → List PathwayRelation × Bool × Nat
  | [] => (acc, false, 0)
  | relations :: rest =>
    let acc2 := if relations ≠ [] then acc ++ relations else acc
    if MIN_REQUIRED_RELATIONS ≤ acc2.length then (acc2, true, 1)
    else
      let r := runBatch acc2 rest
      (r.1, r.2.1, r.2.2 + 1)

/-- The outer batch loop of process_all_pathways (lines 380-404): batches
are processed in order and all remaining batches are skipped once the
early-termination flag is set. -/
def runBatches (acc : List PathwayRelation) : List (List (List PathwayRelation)) → List PathwayRelation × Nat
  | [] => (acc, 0)
  | batch :: rest =>
    let b := runBatch acc batch
    if b.2.1 = true then (b.1, b.2.2)
    else
      let r := runBatches b.1 rest
      (r.1, b.2.2 + r.2)

/-- The scanning loop of process_all_pathways on the per-batch,
completion-ordered parse results (one inner list of relations per pathway
document; the chunking of the URL list into batches of BATCH_SIZE and the
nondeterministic completion order within a batch are externalised into the
shape of the input).  Returns the accumulated relations and the number of
documents whose results were consumed. -/
def process_all_pathways (batches : List (List (List PathwayRelation))) : List PathwayRelation × Nat :=
  runBatches [] batches

/-- Reference form of the same loop without batch structure: consume
documents in order until the threshold is reached. -/
def consumeDocs (acc : List PathwayRelation) : List (List PathwayRelation) → List PathwayRelation × Nat
  | [] => (acc, 0)
  | relations :: rest =>
    let acc2 := if relations ≠ [] then acc ++ relations else acc
    if MIN_REQUIRED_RELATIONS ≤ acc2.length then (acc2, 1)
    else
      let r := consumeDocs acc2 rest
      (r.1, r.2 + 1)

/-! ## RelationAggregator (get_related_genes_and_drugs, lines 434-460) -/

/-- Key membership in the per-gene relation map. -/
def keyMemB (m : List (String × PathwayRelation)) (k : String) : Bool :=
  m.any (fun p => p.1 == k)

/-- One iteration of the aggregation loop (lines 436-446): skip the query
gene itself; store the relation when the code is absent from the map or
the incoming relation_type contains "activation". -/
def aggStep (gene_name : String) (m : List (String × PathwayRelation))
    (relation : PathwayRelation) : List (String × PathwayRelation) :=
  let gene_code := relation.entry_name
  if gene_code == gene_name then m
  else if (!keyMemB m gene_code) || strContains relation.relation_type "activation" then
    dictInsert m gene_code relation
  else m

/-- The per-gene relation map (lines 434-446) as an insertion-ordered
association list, exactly the iteration order of the Python dict. -/
def gene_relation_map (gene_name : String) (all_relations : List PathwayRelation) : List (String × PathwayRelation) :=
  all_relations.foldl (aggStep gene_name) []

/-- Map lookup by gene code. -/
def lookupRel (m : List (String × PathwayRelation)) (c : String) : Option PathwayRelation :=
  lookupDict m c

/-- get_priority (lines 449-456), word for word from the source: the
binding/association test is a substring containment like the others. -/
def get_priority (relation : PathwayRelation) : Nat :=
  if strContains relation.relation_type "activation" then 0
  else if strContains relation.relation_type "inhibition" then 1
  else if strContains relation.relation_type "expression" then 2
  else if strContains relation.relation_type "binding/association" then 3
  else 4

/-- The sort order used at line 459: ascending get_priority. -/
def relLE (a b : PathwayRelation) : Prop :=
  get_priority a ≤ get_priority b

instance : DecidableRel relLE := fun _ _ => Nat.decLe _ _

instance : IsTotal PathwayRelation relLE :=
  ⟨fun _ _ => Nat.le_total _ _⟩

instance : IsTrans PathwayRelation relLE :=
  ⟨fun _ _ _ => Nat.le_trans⟩

/-- Lines 459-460: `sorted(gene_relation_map.values(), key=get_priority)`
truncated to the top 5.  Python's sorted is a stable sort; insertion sort
is stable, and any two stable sorts of the same list under the same total
preorder produce the same output, so this is the exact value computed by
the source. -/
def top_relations (gene_name : String) (all_relations : List PathwayRelation) : List PathwayRelation :=
  (List.insertionSort relLE ((gene_relation_map gene_name all_relations).map Prod.snd)).take 5

/-- Spec-side priority function, following claim C2's words: it differs
from the source's get_priority in requiring relation_type to be *equal* to
"binding/association" for priority 3 where the source tests containment. -/
def claim_priority (relation : PathwayRelation) : Nat :=
  if strContains relation.relation_type "activation" then 0
  else if strContains relation.relation_type "inhibition" then 1
  else if strContains relation.relation_type "expression" then 2
  else if relation.relation_type = "binding/association" then 3
  else 4

/-! ## DrugEnricher (process_gene, lines 469-493, and name resolution) -/

/-- clean_gene_name (lines 60-66). -/
def clean_gene_name (name : String) : String :=
  let name := pyStrip (pyReplace name "NAME (RefSeq)" "")
  let name := pyStrip (pyReplace name "NAME" "")
  pyStrip (pyReplace name "(RefSeq)" "")

/-- clean_drug_name (lines 68-71). -/
def clean_drug_name (name : String) : String :=
  pyStrip (pyReplace name "NAME" "")

/-- The pure part of get_gene_name (lines 121-140): extract the display
name from an entity-record response text.  The first line starting with
"NAME" supplies the name: the text after the first tab when a tab is
present, otherwise the whole line, then cleaned; an empty response or the
absence of such a line yields the sentinel "Unknown". -/
def extract_gene_name (response_text : String) : String :=
  if response_text = "" then "Unknown"
  else
    let lines := pySplit (pyStrip response_text) '\n'
    let name_line := (lines.find? (fun line => strStartsWith line "NAME")).getD ""
    if name_line ≠ "" then
      let name := if strContains name_line "\t" then pyPartitionAfterTab name_line else name_line
      clean_gene_name name
    else "Unknown"

/-- The pure part of get_drug_name (lines 215-233): the name is taken from
the *second line* of the response (lines[1]) whenever the response has at
least two lines, regardless of any NAME marker; fewer than two lines or an
empty response yields "Unknown". -/
def extract_drug_name (response_text : String) : String :=
  if response_text = "" then "Unknown"
  else
    let lines := pySplit (pyStrip response_text) '\n'
    if 2 ≤ lines.length then
      let name_line := lines.getD 1 ""
      let name := if strContains name_line "\t" then pyPartitionAfterTab name_line else name_line
      clean_drug_name name
    else "Unknown"

/-- Spec-side name resolution following claim C8's words: the display name
comes from the line beginning with the NAME marker, taking the text after
the first tab delimiter on that line (the whole line when no tab is
present, as the gene path of the source does), then the cleanup the
respective resolver applies; empty response or no such line yields the
unresolved sentinel. -/
def marker_line_resolution (clean : String → String) (response_text : String) : String :=
  if response_text = "" then "Unknown"
  else
    match (pySplit (pyStrip response_text) '\n').find? (fun line => strStartsWith line "NAME") with
    | some l => clean (if strContains l "\t" then pyPartitionAfterTab l else l)
    | none => "Unknown"

/-- Line 492: `sorted(set(name for name in drug_names if name != "Unknown"))`.
Python's sorted over a set of strings is the unique strictly ascending
enumeration, which insertion sort of the deduplicated list computes. -/
def valid_drugs (drug_names : List String) : List String :=
  List.insertionSort (fun a b : String => a ≤ b) ((drug_names.filter (fun n => n != "Unknown")).dedup)

/-- process_gene (lines 469-493) with the three network-backed resolvers
(gene-name resolution, drug-code listing, drug-name resolution) passed as
functions: returns none when the gene's display name is unresolved (the
gene then contributes nothing to the output map), and otherwise the pair
of display name and hygienic drug-name list. -/
def process_gene (resolveGeneName : String → String) (drugsForGene : String → List String)
    (resolveDrugName : String → String) (relation : PathwayRelation) : Option (String × List String) :=
  let gene_code := relation.entry_name
  let gene_full_name := resolveGeneName gene_code
  if gene_full_name = "Unknown" then none
  else
    let drug_codes := drugsForGene gene_code
    if drug_codes = [] then some (gene_full_name, [])
    else
      let drug_names := drug_codes.map resolveDrugName
      some (gene_full_name, valid_drugs drug_names)


/-! ## Claim C9: durable cache round trip -/

/-- Claim C9: for every (category, key, value), a durable-layer put of the
value under the category-scoped key followed by a durable-layer get of the
same key returns a value equal to the stored one (the model is the
no-I/O-failure behaviour the claim assumes), including after a simulated
process restart that clears the in-memory layer. -/
theorem c9_disk_roundtrip {α : Type} (disk : DiskStore α) (category key : String) (value : α)
    (st : Caches) (svalue : String) :
    load_from_disk_cache (save_to_disk_cache disk key value category) key category = some value
    ∧ (restart { st with diskStr := save_to_disk_cache st.diskStr key svalue category }).api_cache
        = (fun _ => none)
    ∧ load_from_disk_cache
        (restart { st with diskStr := save_to_disk_cache st.diskStr key svalue category }).diskStr
        key category = some svalue := by
  refine ⟨?_, rfl, ?_⟩
  · simp [load_from_disk_cache, save_to_disk_cache]
  · simp [restart, load_from_disk_cache, save_to_disk_cache]

/-! ## Claim C4: fetch failure and success behaviour -/

/-- Claim C4: for every URL on which both cache layers miss, a non-success
HTTP status, a timeout, or any transport error makes get_with_cache return
empty text with both cache layers unchanged (so the empty result is stored
in neither), while a successful request returns the body text and stores it
in both the in-memory and the durable layer. -/
theorem c4_fetch (net : String → FetchOutcome) (st : Caches) (url : String)
    (hmem : st.api_cache url = none)
    (hdisk : load_from_disk_cache st.diskStr url "api" = none) :
    (∀ status text, net url = FetchOutcome.response status text → status ≠ 200 →
        get_with_cache net st url = ("", st))
    ∧ (net url = FetchOutcome.timeout → get_with_cache net st url = ("", st))
    ∧ (net url = FetchOutcome.transportError → get_with_cache net st url = ("", st))
    ∧ (∀ text, net url = FetchOutcome.response 200 text →
        (get_with_cache net st url).1 = text
        ∧ (get_with_cache net st url).2.api_cache url = some text
        ∧ load_from_disk_cache (get_with_cache net st url).2.diskStr url "api" = some text) := by
  have hdisk' : st.diskStr "api" url = none := hdisk
  refine ⟨?_, ?_, ?_, ?_⟩
  · intro status text heq hne
    simp [get_with_cache, hmem, hdisk, hdisk', heq, hne]
  · intro heq
    simp [get_with_cache, hmem, hdisk, hdisk', heq]
  · intro heq
    simp [get_with_cache, hmem, hdisk, hdisk', heq]
  · intro text heq
    refine ⟨?_, ?_, ?_⟩
    · simp [get_with_cache, hmem, hdisk, hdisk', heq]
    · simp [get_with_cache, hmem, hdisk, hdisk', heq]
    · simp [get_with_cache, hmem, hdisk, hdisk', heq, load_from_disk_cache, save_to_disk_cache]

/-- Empty cache state used by the concrete witnesses. -/
def emptyCaches : Caches :=
  ⟨fun _ => none, fun _ _ => none, fun _ _ => none⟩

/-- Network double that always answers 200 with body "body". -/
def okNet : String → FetchOutcome :=
  fun _ => FetchOutcome.response 200 "body"

/-- Witness for C4 at a concrete miss state and a succeeding request. -/
theorem c4_fetch_witness :
    (get_with_cache okNet emptyCaches "u").1 = "body"
    ∧ (get_with_cache okNet emptyCaches "u").2.api_cache "u" = some "body" := by
  have h := (c4_fetch okNet emptyCaches "u" rfl rfl).2.2.2 "body" rfl
  exact ⟨h.1, h.2.1⟩


/-! ## Claim C5: no duplicate triples in one parse result -/

/-- Nodup of a list extended by a fresh element on the right. -/
theorem nodup_append_singleton {α : Type} {l : List α} {a : α}
    (h : l.Nodup) (ha : a ∉ l) : (l ++ [a]).Nodup := by
  simp [List.nodup_append, h, ha]

/-- Invariant of the second parsing pass: the relations list and the dedup
set hold exactly the same triples, in the same order, without duplicates. -/
def relAccInv (acc : RelAcc) : Prop :=
  acc.relations.map relationKey = acc.relation_set ∧ acc.relation_set.Nodup

theorem relationStep_inv (title : Option String) (entry_names : List (String × String))
    (gid : String) (acc : RelAcc) (rel : KgmlRelation)
    (h : relAccInv acc) : relAccInv (relationStep title entry_names gid acc rel) := by
  obtain ⟨hmap, hnodup⟩ := h
  unfold relationStep
  dsimp only
  split_ifs
  all_goals
    first
      | exact ⟨hmap, hnodup⟩
      | exact ⟨by simpa [relationKey] using hmap, nodup_append_singleton hnodup (by assumption)⟩

theorem foldl_relationStep_inv (title : Option String) (entry_names : List (String × String))
    (gid : String) (rels : List KgmlRelation) :
    ∀ acc, relAccInv acc → relAccInv (rels.foldl (relationStep title entry_names gid) acc) := by
  induction rels with
  | nil => intro acc h; exact h
  | cons r t ih =>
    intro acc h
    exact ih _ (relationStep_inv title entry_names gid acc r h)

/-- Claim C5: within one pathway-parse result, no two relation records
share the same (related_entry_id, related_gene_code, relation_type)
triple. -/
theorem c5_parse_dedup (xml_text : String) (etParse : String → Option KgmlDoc)
    (gene_id_to_find : String) :
    ((parse_xml_worker xml_text etParse gene_id_to_find).relations.map relationKey).Nodup := by
  unfold parse_xml_worker
  split
  · simp [emptyParse]
  split
  · simp [emptyParse]
  rename_i root _
  dsimp only
  split
  · simp [emptyParse]
  rename_i gid hgid
  split
  · simp [emptyParse]
  dsimp only
  have hinv := foldl_relationStep_inv
    (match root.nameTexts with
     | [] => some "Unknown Pathway"
     | t :: _ => t)
    (root.entries.foldl (entryStep gene_id_to_find) ([], none)).1 gid
    root.relations ⟨[], []⟩ ⟨rfl, List.nodup_nil⟩
  rw [hinv.1]
  exact hinv.2

/-! ## Claim C6: every failure mode yields the same empty result -/

/-- Claim C6: parse_xml_worker is total (no exception escapes its
boundary), and input that does not look like an XML document, a document
on which the external parser fails, and a document in which no matching
gene entry is found all produce the identical empty result
(no match, no relations, empty name map). -/
theorem c6_parse_failures (xml_text : String) (etParse : String → Option KgmlDoc)
    (gene_id_to_find : String) :
    (xml_text = "" ∨ strStartsWith (pyStrip xml_text) "<?xml" = false →
        parse_xml_worker xml_text etParse gene_id_to_find = emptyParse)
    ∧ (etParse xml_text = none →
        parse_xml_worker xml_text etParse gene_id_to_find = emptyParse)
    ∧ (∀ root, etParse xml_text = some root →
        (root.entries.foldl (entryStep gene_id_to_find) ([], none)).2 = none →
        parse_xml_worker xml_text etParse gene_id_to_find = emptyParse) := by
  refine ⟨?_, ?_, ?_⟩
  · intro h
    unfold parse_xml_worker
    rw [if_pos h]
  · intro h
    unfold parse_xml_worker
    split
    · rfl
    · rw [h]
  · intro root h hnone
    unfold parse_xml_worker
    split
    · rfl
    · rw [h]
      dsimp only
      rw [hnone]

/-- Witness for C6: a non-XML document text yields the empty result. -/
theorem c6_parse_failures_witness :
    parse_xml_worker "not xml at all" (fun _ => none) "5747" = emptyParse :=
  (c6_parse_failures "not xml at all" (fun _ => none) "5747").1 (Or.inr (by decide))


/-! ## Claim C1: the per-gene relation map invariant -/

theorem bool_not_true {b : Bool} (h : ¬ b = true) : b = false := by
  cases b
  · rfl
  · exact absurd rfl h

theorem find?_cons_pos {α : Type} (p : α → Bool) (a : α) (l : List α) (h : p a = true) :
    (a :: l).find? p = some a := by
  simp [List.find?, h]

theorem find?_cons_neg {α : Type} (p : α → Bool) (a : α) (l : List α) (h : p a = false) :
    (a :: l).find? p = l.find? p := by
  simp [List.find?, h]

theorem find?_overwrite_self {β : Type} (k : String) (v : β) :
    ∀ m : List (String × β), m.any (fun p => p.1 == k) = true →
      (m.map (fun p => if p.1 == k then (p.1, v) else p)).find? (fun p => p.1 == k)
        = some (k, v) := by
  intro m
  induction m with
  | nil => intro h; simp at h
  | cons p t ih =>
    intro h
    by_cases hpk : (p.1 == k) = true
    · have hpk' : p.1 = k := by simpa using hpk
      simp only [List.map_cons, if_pos hpk]
      rw [find?_cons_pos (fun q => q.1 == k) (p.1, v) _ (by simpa using hpk)]
      rw [hpk']
    · have h' : t.any (fun q => q.1 == k) = true := by
        simpa [List.any_cons, hpk] using h
      simp only [List.map_cons, if_neg hpk]
      rw [find?_cons_neg (fun q => q.1 == k) p _ (by simpa using hpk)]
      exact ih h'

theorem find?_overwrite_ne {β : Type} (k c : String) (v : β) (hck : c ≠ k) :
    ∀ m : List (String × β),
      (m.map (fun p => if p.1 == k then (p.1, v) else p)).find? (fun p => p.1 == c)
        = m.find? (fun p => p.1 == c) := by
  intro m
  induction m with
  | nil => rfl
  | cons p t ih =>
    by_cases hpk : (p.1 == k) = true
    · have hpk' : p.1 = k := by simpa using hpk
      have hpc : (p.1 == c) = false := by
        rw [beq_eq_false_iff_ne]
        intro h
        exact hck (hpk' ▸ h).symm
      simp only [List.map_cons, if_pos hpk]
      rw [find?_cons_neg (fun q => q.1 == c) (p.1, v) _ hpc]
      rw [find?_cons_neg (fun q => q.1 == c) p _ hpc]
      exact ih
    · simp only [List.map_cons, if_neg hpk]
      by_cases hpc : (p.1 == c) = true
      · rw [find?_cons_pos (fun q => q.1 == c) p _ hpc]
        rw [find?_cons_pos (fun q => q.1 == c) p _ hpc]
      · have hpc' : (p.1 == c) = false := by simpa using hpc
        rw [find?_cons_neg (fun q => q.1 == c) p _ hpc']
        rw [find?_cons_neg (fun q => q.1 == c) p _ hpc']
        exact ih

theorem lookupDict_dictInsert_self {β : Type} (k : String) (v : β)
    (m : List (String × β)) : lookupDict (dictInsert m k v) k = some v := by
  unfold dictInsert
  split
  · rename_i hany
    unfold lookupDict
    rw [find?_overwrite_self k v m hany]
    rfl
  · rename_i hany
    have hany' : m.any (fun p => p.1 == k) = false := bool_not_true hany
    have hnone : m.find? (fun p => p.1 == k) = none := by
      rw [List.find?_eq_none]
      intro x hx
      exact List.any_eq_false.mp hany' x hx
    unfold lookupDict
    rw [List.find?_append, hnone]
    simp

theorem lookupDict_dictInsert_ne {β : Type} (k c : String) (v : β) (hck : c ≠ k)
    (m : List (String × β)) : lookupDict (dictInsert m k v) c = lookupDict m c := by
  unfold dictInsert
  split
  · unfold lookupDict
    rw [find?_overwrite_ne k c v hck m]
  · unfold lookupDict
    rw [List.find?_append]
    have hsingle : ([(k, v)].find? (fun p => p.1 == c)) = none := by
      rw [List.find?_eq_none]
      intro x hx
      simp at hx
      subst hx
      simp
      intro h
      exact hck h.symm
    rw [hsingle]
    cases m.find? (fun p => p.1 == c) <;> rfl

theorem keyMemB_false_lookup (m : List (String × PathwayRelation)) (c : String)
    (h : keyMemB m c = false) : lookupRel m c = none := by
  unfold lookupRel lookupDict
  have hnone : m.find? (fun p => p.1 == c) = none := by
    rw [List.find?_eq_none]
    intro x hx
    have := List.any_eq_false.mp h x hx
    simpa using this
  rw [hnone]
  rfl

theorem keyMemB_true_lookup (m : List (String × PathwayRelation)) (c : String)
    (h : keyMemB m c = true) : ∃ a, lookupRel m c = some a := by
  unfold keyMemB at h
  obtain ⟨x, hx, hpx⟩ := List.any_eq_true.mp h
  have hsome : (m.find? (fun p => p.1 == c)).isSome := by
    rw [List.find?_isSome]
    exact ⟨x, hx, hpx⟩
  obtain ⟨p, hp⟩ := Option.isSome_iff_exists.mp hsome
  exact ⟨p.2, by unfold lookupRel lookupDict; rw [hp]; rfl⟩

/-- When the incoming relation is not the query gene, the stored entry for
its code after one aggregation step is the incoming relation exactly when
the code was absent or the incoming relation_type contains "activation",
and the previously stored entry otherwise. -/
theorem lookupRel_aggStep_self (gene_name : String) (m : List (String × PathwayRelation))
    (relation : PathwayRelation) (hg : relation.entry_name ≠ gene_name) :
    lookupRel (aggStep gene_name m relation) relation.entry_name =
      if lookupRel m relation.entry_name = none
          ∨ strContains relation.relation_type "activation" = true
      then some relation else lookupRel m relation.entry_name := by
  have hbg : (relation.entry_name == gene_name) = false := by simpa using hg
  unfold aggStep
  dsimp only
  rw [hbg]
  simp only [Bool.false_eq_true, if_false]
  by_cases hm : keyMemB m relation.entry_name = true
  · by_cases ha : strContains relation.relation_type "activation" = true
    · rw [hm]
      simp only [Bool.not_true, Bool.false_or]
      rw [if_pos ha, if_pos (Or.inr ha)]
      exact lookupDict_dictInsert_self relation.entry_name relation m
    · have ha' : strContains relation.relation_type "activation" = false := bool_not_true ha
      obtain ⟨a, hla⟩ := keyMemB_true_lookup m relation.entry_name hm
      rw [hm]
      simp only [Bool.not_true, Bool.false_or]
      rw [if_neg (by rw [ha']; exact Bool.false_ne_true), if_neg (by simp [hla, ha'])]
  · have hm' : keyMemB m relation.entry_name = false := bool_not_true hm
    have hnone := keyMemB_false_lookup m relation.entry_name hm'
    rw [hm']
    simp only [Bool.not_false, Bool.true_or]
    rw [if_pos trivial, if_pos (Or.inl hnone)]
    exact lookupDict_dictInsert_self relation.entry_name relation m

/-- One aggregation step never changes the stored entry of a different
gene code. -/
theorem lookupRel_aggStep_other (gene_name : String) (m : List (String × PathwayRelation))
    (relation : PathwayRelation) (c : String) (hc : c ≠ relation.entry_name) :
    lookupRel (aggStep gene_name m relation) c = lookupRel m c := by
  unfold aggStep
  dsimp only
  split
  · rfl
  split
  · exact lookupDict_dictInsert_ne relation.entry_name c relation hc m
  · rfl

/-- The code c holds an activation entry of the map. -/
def activationAt (m : List (String × PathwayRelation)) (c : String) : Prop :=
  ∃ a, lookupRel m c = some a ∧ strContains a.relation_type "activation" = true

theorem activationAt_aggStep (gene_name : String) (m : List (String × PathwayRelation))
    (relation : PathwayRelation) (c : String) (h : activationAt m c) :
    activationAt (aggStep gene_name m relation) c := by
  obtain ⟨a, hla, haa⟩ := h
  by_cases hcr : c = relation.entry_name
  · subst hcr
    by_cases hg : relation.entry_name = gene_name
    · have hskip : aggStep gene_name m relation = m := by
        unfold aggStep
        dsimp only
        rw [show (relation.entry_name == gene_name) = true by simpa using hg, if_pos rfl]
      rw [hskip]
      exact ⟨a, hla, haa⟩
    · by_cases hai : strContains relation.relation_type "activation" = true
      · exact ⟨relation,
          by rw [lookupRel_aggStep_self gene_name m relation hg, if_pos (Or.inr hai)], hai⟩
      · have hcond : ¬ (lookupRel m relation.entry_name = none
            ∨ strContains relation.relation_type "activation" = true) := by
          simp [hla, hai]
        exact ⟨a,
          by rw [lookupRel_aggStep_self gene_name m relation hg, if_neg hcond]; exact hla, haa⟩
  · exact ⟨a, by rw [lookupRel_aggStep_other gene_name m relation c hcr]; exact hla, haa⟩

theorem activationAt_foldl (gene_name : String) (c : String) :
    ∀ (rels : List PathwayRelation) (m : List (String × PathwayRelation)),
      activationAt m c → activationAt (rels.foldl (aggStep gene_name) m) c := by
  intro rels
  induction rels with
  | nil => intro m h; exact h
  | cons r t ih =>
    intro m h
    exact ih _ (activationAt_aggStep gene_name m r c h)

theorem activation_established_foldl (gene_name c : String) :
    ∀ (rels : List PathwayRelation) (m0 : List (String × PathwayRelation))
      (r : PathwayRelation), r ∈ rels → r.entry_name = c → c ≠ gene_name →
      strContains r.relation_type "activation" = true →
      activationAt (rels.foldl (aggStep gene_name) m0) c := by
  intro rels
  induction rels with
  | nil =>
    intro m0 r hmem
    simp at hmem
  | cons x t ih =>
    intro m0 r hmem hname hcg hact
    rw [List.foldl_cons]
    rcases List.mem_cons.mp hmem with hx | ht
    · subst hx
      subst hname
      apply activationAt_foldl gene_name r.entry_name t
      exact ⟨r,
        by rw [lookupRel_aggStep_self gene_name m0 r hcg, if_pos (Or.inr hact)], hact⟩
    · exact ih _ r ht hname hcg hact

theorem aggStep_keys_nodup (gene_name : String) (m : List (String × PathwayRelation))
    (relation : PathwayRelation) (h : (m.map Prod.fst).Nodup) :
    ((aggStep gene_name m relation).map Prod.fst).Nodup := by
  unfold aggStep
  dsimp only
  split
  · exact h
  split
  · unfold dictInsert
    split
    · have hkeys : ((m.map fun p =>
          if p.1 == relation.entry_name then (p.1, relation) else p).map Prod.fst)
          = m.map Prod.fst := by
        rw [List.map_map]
        apply List.map_congr_left
        intro p _
        simp only [Function.comp_apply]
        split <;> rfl
      rw [hkeys]
      exact h
    · rename_i hany
      have hany' : m.any (fun p => p.1 == relation.entry_name) = false := bool_not_true hany
      have hninmem : relation.entry_name ∉ m.map Prod.fst := by
        intro hmem
        obtain ⟨p, hp, hfst⟩ := List.mem_map.mp hmem
        have := List.any_eq_false.mp hany' p hp
        simp [hfst] at this
      simpa using nodup_append_singleton h hninmem
  · exact h

theorem foldl_aggStep_keys_nodup (gene_name : String) :
    ∀ (rels : List PathwayRelation) (m : List (String × PathwayRelation)),
      (m.map Prod.fst).Nodup → ((rels.foldl (aggStep gene_name) m).map Prod.fst).Nodup := by
  intro rels
  induction rels with
  | nil => intro m h; exact h
  | cons r t ih =>
    intro m h
    exact ih _ (aggStep_keys_nodup gene_name m r h)

/-- Claim C1: the per-gene map contains at most one entry per gene code
(its keys are duplicate-free); an incoming relation whose code differs
from the query gene replaces the stored entry exactly when the stored
entry is absent or the incoming relation_type contains "activation"
(first-seen-wins otherwise); consequently, if any aggregated relation for
a code other than the query gene contains "activation", the finally stored
entry for that code is an activation relation.  (Relations whose code
equals the query gene are excluded from the map by the source, lines
439-441, so the rule is stated for the codes the aggregation step admits.) -/
theorem c1_per_gene_map (gene_name : String) (all_relations : List PathwayRelation) (c : String) :
    ((gene_relation_map gene_name all_relations).map Prod.fst).Nodup
    ∧ (∀ m relation, relation.entry_name ≠ gene_name →
        lookupRel (aggStep gene_name m relation) relation.entry_name =
          if lookupRel m relation.entry_name = none
              ∨ strContains relation.relation_type "activation" = true
          then some relation else lookupRel m relation.entry_name)
    ∧ ((∃ r ∈ all_relations, r.entry_name = c ∧ c ≠ gene_name
          ∧ strContains r.relation_type "activation" = true) →
        ∃ stored, lookupRel (gene_relation_map gene_name all_relations) c = some stored
          ∧ strContains stored.relation_type "activation" = true) := by
  refine ⟨?_, ?_, ?_⟩
  · exact foldl_aggStep_keys_nodup gene_name all_relations [] (by simp)
  · intro m relation hg
    exact lookupRel_aggStep_self gene_name m relation hg
  · intro hex
    obtain ⟨r, hmem, hname, hcg, hact⟩ := hex
    exact activation_established_foldl gene_name c all_relations [] r hmem hname hcg hact

/-- Activation relation used by the concrete witnesses. -/
def wrel : PathwayRelation :=
  ⟨some "9", "hsa:9", "activation", some "P"⟩

/-- Witness for C1: one activation relation for code "hsa:9" yields an
activation entry, and the one-step replacement rule fires on the empty
map. -/
theorem c1_per_gene_map_witness :
    lookupRel (aggStep "hsa:0" [] wrel) "hsa:9" = some wrel
    ∧ ∃ stored, lookupRel (gene_relation_map "hsa:0" [wrel]) "hsa:9" = some stored
        ∧ strContains stored.relation_type "activation" = true := by
  have h := c1_per_gene_map "hsa:0" [wrel] "hsa:9"
  constructor
  · have h2 := h.2.1 [] wrel (by decide)
    show lookupRel (aggStep "hsa:0" [] wrel) wrel.entry_name = some wrel
    rw [h2, if_pos (Or.inl (show lookupRel [] wrel.entry_name = none from rfl))]
  · exact h.2.2 ⟨wrel, by simp, rfl, by decide, by decide⟩


/-! ## Claim C2: ranking order, stability, truncation -/

theorem filter_orderedInsert (k : Nat) (a : PathwayRelation) :
    ∀ l : List PathwayRelation,
      (List.orderedInsert relLE a l).filter (fun x => get_priority x == k)
        = if get_priority a == k then a :: l.filter (fun x => get_priority x == k)
          else l.filter (fun x => get_priority x == k) := by
  intro l
  induction l with
  | nil =>
    by_cases hak : (get_priority a == k) = true
    · simp [List.orderedInsert, hak]
    · have hak' := bool_not_true hak
      simp [List.orderedInsert, hak']
  | cons b t ih =>
    rw [List.orderedInsert]
    by_cases hab : relLE a b
    · rw [if_pos hab]
      by_cases hak : (get_priority a == k) = true
      · simp [List.filter_cons, hak]
      · have hak' := bool_not_true hak
        simp [List.filter_cons, hak']
    · rw [if_neg hab]
      by_cases hbk : (get_priority b == k) = true
      · by_cases hak : (get_priority a == k) = true
        · exfalso
          have h1 : get_priority a = k := by simpa using hak
          have h2 : get_priority b = k := by simpa using hbk
          exact hab (by unfold relLE; omega)
        · have hak' := bool_not_true hak
          simp [List.filter_cons, hbk, hak', ih]
      · have hbk' := bool_not_true hbk
        simp [List.filter_cons, hbk', ih]

/-- Stability of the sort at line 459: the subsequence of any one priority
class is untouched by the sort. -/
theorem filter_insertionSort (k : Nat) :
    ∀ l : List PathwayRelation,
      (List.insertionSort relLE l).filter (fun x => get_priority x == k)
        = l.filter (fun x => get_priority x == k) := by
  intro l
  induction l with
  | nil => rfl
  | cons a t ih =>
    rw [List.insertionSort]
    rw [filter_orderedInsert k a (List.insertionSort relLE t)]
    by_cases hak : (get_priority a == k) = true
    · rw [if_pos hak, ih]
      simp [List.filter_cons, hak]
    · have hak' := bool_not_true hak
      rw [if_neg (by rw [hak']; exact Bool.false_ne_true), ih]
      simp [List.filter_cons, hak']

/-- Claim C2 as the source computes it (amended): the aggregation result
contains at most 5 entries, is sorted ascending by the source's priority
function get_priority — whose binding/association case is a substring
containment test, not an equality test — and entries of equal priority
preserve their encounter order in the per-gene map (stable sort). -/
theorem c2_ranking (gene_name : String) (all_relations : List PathwayRelation) :
    (top_relations gene_name all_relations).length ≤ 5
    ∧ (top_relations gene_name all_relations).Pairwise relLE
    ∧ ∀ p : Nat,
        (top_relations gene_name all_relations).filter (fun r => get_priority r == p)
          <+: ((gene_relation_map gene_name all_relations).map Prod.snd).filter
                (fun r => get_priority r == p) := by
  refine ⟨?_, ?_, ?_⟩
  · unfold top_relations
    rw [List.length_take]
    exact Nat.min_le_left _ _
  · unfold top_relations
    exact List.Pairwise.sublist (List.take_sublist 5 _) (List.sorted_insertionSort relLE _)
  · intro p
    unfold top_relations
    have hpref : (List.insertionSort relLE
        ((gene_relation_map gene_name all_relations).map Prod.snd)).take 5
        <+: List.insertionSort relLE ((gene_relation_map gene_name all_relations).map Prod.snd) :=
      ⟨_, List.take_append_drop 5 _⟩
    have hfp := List.IsPrefix.filter (fun r => get_priority r == p) hpref
    rwa [filter_insertionSort p] at hfp

/-- First counterexample relation: relation_type in no priority class. -/
def crel_other : PathwayRelation :=
  ⟨some "21", "hsa:21", "phosphorylation", some "P"⟩

/-- Second counterexample relation: relation_type *contains* but does not
*equal* "binding/association". -/
def crel_ba : PathwayRelation :=
  ⟨some "22", "hsa:22", "binding/association/indirect effect", some "P"⟩

def c2_input : List PathwayRelation :=
  [crel_other, crel_ba]

/-- Counterexample to claim C2 as stated: under the claim's priority
function (priority 3 only when relation_type *equals*
"binding/association"), both input relations have priority 4, yet the
source ranks "binding/association/indirect effect" by *containment*
(priority 3) and moves it ahead of the earlier-seen "phosphorylation", so
entries of equal claim-priority do not preserve their encounter order. -/
theorem c2_counterexample :
    ¬ ((top_relations "hsa:0" c2_input).length ≤ 5
       ∧ (top_relations "hsa:0" c2_input).Pairwise
           (fun a b => claim_priority a ≤ claim_priority b)
       ∧ ∀ p : Nat,
           (top_relations "hsa:0" c2_input).filter (fun r => claim_priority r == p)
             <+: ((gene_relation_map "hsa:0" c2_input).map Prod.snd).filter
                   (fun r => claim_priority r == p)) := by
  intro h
  have h4 := h.2.2 4
  revert h4
  decide


/-! ## Claim C3: early termination of the pathway scan -/

theorem runBatch_early_consume :
    ∀ (batch : List (List PathwayRelation)) (acc : List PathwayRelation)
      (l : List (List PathwayRelation)),
      (runBatch acc batch).2.1 = true →
      consumeDocs acc (batch ++ l) = ((runBatch acc batch).1, (runBatch acc batch).2.2) := by
  intro batch
  induction batch with
  | nil =>
    intro acc l h
    simp [runBatch] at h
  | cons d rest ih =>
    intro acc l h
    rw [List.cons_append, consumeDocs, runBatch]
    rw [runBatch] at h
    dsimp only at h ⊢
    by_cases hth : MIN_REQUIRED_RELATIONS ≤ (if d ≠ [] then acc ++ d else acc).length
    · rw [if_pos hth]
      rw [if_pos hth]
    · rw [if_neg hth] at h
      dsimp only at h
      rw [if_neg hth, if_neg hth]
      rw [ih _ l h]

theorem runBatch_full_count :
    ∀ (batch : List (List PathwayRelation)) (acc : List PathwayRelation),
      (runBatch acc batch).2.1 = false → (runBatch acc batch).2.2 = batch.length := by
  intro batch
  induction batch with
  | nil => intro acc _; rfl
  | cons d rest ih =>
    intro acc h
    rw [runBatch] at h ⊢
    dsimp only at h ⊢
    by_cases hth : MIN_REQUIRED_RELATIONS ≤ (if d ≠ [] then acc ++ d else acc).length
    · rw [if_pos hth] at h
      simp at h
    · rw [if_neg hth] at h ⊢
      dsimp only at h ⊢
      rw [List.length_cons]
      rw [ih _ h]

theorem runBatch_full_consume :
    ∀ (batch : List (List PathwayRelation)) (acc : List PathwayRelation)
      (l : List (List PathwayRelation)),
      (runBatch acc batch).2.1 = false →
      consumeDocs acc (batch ++ l)
        = ((consumeDocs (runBatch acc batch).1 l).1,
           batch.length + (consumeDocs (runBatch acc batch).1 l).2) := by
  intro batch
  induction batch with
  | nil =>
    intro acc l _
    simp [runBatch, List.nil_append]
  | cons d rest ih =>
    intro acc l h
    rw [List.cons_append, consumeDocs, runBatch]
    rw [runBatch] at h
    dsimp only at h ⊢
    by_cases hth : MIN_REQUIRED_RELATIONS ≤ (if d ≠ [] then acc ++ d else acc).length
    · rw [if_pos hth] at h
      simp at h
    · rw [if_neg hth] at h
      dsimp only at h
      rw [if_neg hth, if_neg hth]
      dsimp only
      rw [ih _ l h]
      dsimp only
      rw [Prod.mk.injEq]
      refine ⟨rfl, ?_⟩
      rw [List.length_cons]
      omega

theorem runBatches_eq_consumeDocs :
    ∀ (bs : List (List (List PathwayRelation))) (acc : List PathwayRelation),
      runBatches acc bs = consumeDocs acc bs.flatten := by
  intro bs
  induction bs with
  | nil => intro acc; rfl
  | cons b rest ih =>
    intro acc
    rw [runBatches, List.flatten_cons]
    dsimp only
    by_cases hflag : (runBatch acc b).2.1 = true
    · rw [if_pos hflag]
      rw [runBatch_early_consume b acc rest.flatten hflag]
    · have hflag' : (runBatch acc b).2.1 = false := bool_not_true hflag
      rw [if_neg hflag]
      rw [runBatch_full_consume b acc rest.flatten hflag']
      rw [ih ((runBatch acc b).1)]
      rw [runBatch_full_count b acc hflag']

theorem consumeDocs_count_le :
    ∀ (l : List (List PathwayRelation)) (acc : List PathwayRelation),
      (consumeDocs acc l).2 ≤ l.length := by
  intro l
  induction l with
  | nil => intro acc; exact Nat.le_refl 0
  | cons d rest ih =>
    intro acc
    rw [consumeDocs, List.length_cons]
    dsimp only
    have hacc2 : (if d ≠ [] then acc ++ d else acc) = acc ++ d := by
      by_cases hd : d = [] <;> simp [hd]
    rw [hacc2]
    by_cases hth : MIN_REQUIRED_RELATIONS ≤ (acc ++ d).length
    · rw [if_pos hth]
      dsimp only
      omega
    · rw [if_neg hth]
      dsimp only
      have := ih (acc ++ d)
      omega

theorem consumeDocs_result :
    ∀ (l : List (List PathwayRelation)) (acc : List PathwayRelation),
      (consumeDocs acc l).1 = acc ++ (l.take (consumeDocs acc l).2).flatten := by
  intro l
  induction l with
  | nil => intro acc; simp [consumeDocs]
  | cons d rest ih =>
    intro acc
    rw [consumeDocs]
    dsimp only
    have hacc2 : (if d ≠ [] then acc ++ d else acc) = acc ++ d := by
      by_cases hd : d = [] <;> simp [hd]
    rw [hacc2]
    split
    · simp
    · rw [ih (acc ++ d)]
      simp [List.append_assoc]

theorem consumeDocs_stops_at_threshold :
    ∀ (l : List (List PathwayRelation)) (acc : List PathwayRelation),
      acc.length < MIN_REQUIRED_RELATIONS →
      ∀ k, k < (consumeDocs acc l).2 →
        (acc ++ (l.take k).flatten).length < MIN_REQUIRED_RELATIONS := by
  intro l
  induction l with
  | nil =>
    intro acc hacc k hk
    simp [consumeDocs] at hk
  | cons d rest ih =>
    intro acc hacc k hk
    rw [consumeDocs] at hk
    dsimp only at hk
    have hacc2 : (if d ≠ [] then acc ++ d else acc) = acc ++ d := by
      by_cases hd : d = [] <;> simp [hd]
    rw [hacc2] at hk
    by_cases hth : MIN_REQUIRED_RELATIONS ≤ (acc ++ d).length
    · rw [if_pos hth] at hk
      have hk0 : k = 0 := by omega
      subst hk0
      simpa using hacc
    · rw [if_neg hth] at hk
      dsimp only at hk
      cases k with
      | zero => simpa using hacc
      | succ k =>
        have hd' : (acc ++ d).length < MIN_REQUIRED_RELATIONS := by omega
        have := ih (acc ++ d) hd' k (by omega)
        rw [List.take_succ_cons, List.flatten_cons, ← List.append_assoc]
        exact this

theorem consumeDocs_full_or_reached :
    ∀ (l : List (List PathwayRelation)) (acc : List PathwayRelation),
      (consumeDocs acc l).2 = l.length
      ∨ MIN_REQUIRED_RELATIONS ≤ (consumeDocs acc l).1.length := by
  intro l
  induction l with
  | nil => intro acc; exact Or.inl rfl
  | cons d rest ih =>
    intro acc
    rw [consumeDocs, List.length_cons]
    dsimp only
    have hacc2 : (if d ≠ [] then acc ++ d else acc) = acc ++ d := by
      by_cases hd : d = [] <;> simp [hd]
    rw [hacc2]
    by_cases hth : MIN_REQUIRED_RELATIONS ≤ (acc ++ d).length
    · rw [if_pos hth]
      exact Or.inr hth
    · rw [if_neg hth]
      dsimp only
      rcases ih (acc ++ d) with hlen | hge
      · exact Or.inl (by omega)
      · exact Or.inr hge

/-- Claim C3: the scan consumes at most MAX_RELATION_PATHWAYS (15) pathway
documents (the URL list is truncated to that bound before batching), its
result is exactly the concatenation of the consumed documents' relations,
every document is consumed in a state still below the
MIN_REQUIRED_RELATIONS (10) threshold — so the scan stops, skipping all
remaining batches, as soon as the accumulated count reaches the threshold
— and the scan only stops before exhausting the documents when the
threshold has been reached.  batches are the per-batch completion-ordered
per-document relation lists; the hypothesis records that they carry one
result per generated pathway URL. -/
theorem c3_early_termination (pathway_codes : List String)
    (batches : List (List (List PathwayRelation)))
    (hdocs : batches.flatten.length = (pathway_urls pathway_codes).length) :
    (process_all_pathways batches).2 ≤ MAX_RELATION_PATHWAYS
    ∧ (process_all_pathways batches).1
        = (batches.flatten.take (process_all_pathways batches).2).flatten
    ∧ (∀ k, k < (process_all_pathways batches).2 →
        ((batches.flatten.take k).flatten).length < MIN_REQUIRED_RELATIONS)
    ∧ ((process_all_pathways batches).2 = batches.flatten.length
        ∨ MIN_REQUIRED_RELATIONS ≤ (process_all_pathways batches).1.length) := by
  have heq : process_all_pathways batches = consumeDocs [] batches.flatten :=
    runBatches_eq_consumeDocs batches []
  have hurls : (pathway_urls pathway_codes).length ≤ MAX_RELATION_PATHWAYS := by
    unfold pathway_urls
    rw [List.length_map, List.length_take]
    exact Nat.min_le_left _ _
  refine ⟨?_, ?_, ?_, ?_⟩
  · rw [heq]
    have h1 := consumeDocs_count_le batches.flatten []
    omega
  · rw [heq]
    have := consumeDocs_result batches.flatten []
    simpa using this
  · intro k hk
    rw [heq] at hk
    have := consumeDocs_stops_at_threshold batches.flatten []
      (by decide) k hk
    simpa using this
  · rw [heq]
    exact consumeDocs_full_or_reached batches.flatten []

/-- Witness for C3: a single one-document batch with an empty parse
result, matching one resolved pathway code. -/
theorem c3_early_termination_witness :
    (process_all_pathways [[[]]]).2 ≤ MAX_RELATION_PATHWAYS :=
  (c3_early_termination ["path:hsa04510"] [[[]]] (by decide)).1


/-! ## Claim C7: drug list hygiene -/

theorem valid_drugs_sorted_nodup (drug_names : List String) :
    (valid_drugs drug_names).Nodup
    ∧ (∀ d ∈ valid_drugs drug_names, d ≠ "Unknown")
    ∧ (valid_drugs drug_names).Pairwise (fun a b : String => a ≤ b) := by
  unfold valid_drugs
  have hperm := List.perm_insertionSort (fun a b : String => a ≤ b)
      ((drug_names.filter (fun n => n != "Unknown")).dedup)
  refine ⟨?_, ?_, ?_⟩
  · exact hperm.nodup_iff.mpr (List.nodup_dedup _)
  · intro d hd
    have hd' : d ∈ (drug_names.filter (fun n => n != "Unknown")).dedup := hperm.mem_iff.mp hd
    have hd'' : d ∈ drug_names.filter (fun n => n != "Unknown") := List.mem_dedup.mp hd'
    have := (List.mem_filter.mp hd'').2
    simpa using this
  · exact List.sorted_insertionSort (fun a b : String => a ≤ b) _

/-- Claim C7: every drug-name list a gene contributes to the enrichment
output has no duplicates, no "Unknown" sentinel entries, and is sorted
lexicographically. -/
theorem c7_drug_hygiene (resolveGeneName : String → String) (drugsForGene : String → List String)
    (resolveDrugName : String → String) (relation : PathwayRelation)
    (gene_full_name : String) (drugs : List String)
    (h : process_gene resolveGeneName drugsForGene resolveDrugName relation
        = some (gene_full_name, drugs)) :
    drugs.Nodup ∧ (∀ d ∈ drugs, d ≠ "Unknown")
    ∧ drugs.Pairwise (fun a b : String => a ≤ b) := by
  unfold process_gene at h
  dsimp only at h
  split at h
  · exact absurd h (by simp)
  split at h
  · rw [Option.some.injEq, Prod.mk.injEq] at h
    obtain ⟨-, h2⟩ := h
    subst h2
    exact ⟨List.nodup_nil, by simp, List.Pairwise.nil⟩
  · rw [Option.some.injEq, Prod.mk.injEq] at h
    obtain ⟨-, h2⟩ := h
    subst h2
    exact valid_drugs_sorted_nodup _

/-- Relation record used by the C7 witness. -/
def wdrugRelation : PathwayRelation :=
  ⟨some "1", "hsa:1", "activation", none⟩

/-- Witness for C7: two drug codes resolving to one valid name and one
"Unknown" yield the singleton hygienic list. -/
theorem c7_drug_hygiene_witness :
    (["DrugA"] : List String).Nodup
    ∧ (∀ d ∈ (["DrugA"] : List String), d ≠ "Unknown")
    ∧ (["DrugA"] : List String).Pairwise (fun a b : String => a ≤ b) :=
  c7_drug_hygiene (fun _ => "GeneA") (fun _ => ["D1", "D2"])
    (fun c => if c = "D1" then "DrugA" else "Unknown")
    wdrugRelation "GeneA" ["DrugA"] (by decide)

/-! ## Claim C8: display-name resolution -/

/-- The rule the drug path of the source actually implements: the display
name comes from the second line of the stripped response whenever there
are at least two lines (regardless of any NAME marker), cleaned; an empty
response or fewer than two lines yields the unresolved sentinel. -/
def second_line_resolution (clean : String → String) (response_text : String) : String :=
  if response_text = "" then "Unknown"
  else
    let lines := pySplit (pyStrip response_text) '\n'
    if 2 ≤ lines.length then
      let name_line := lines.getD 1 ""
      let name := if strContains name_line "\t" then pyPartitionAfterTab name_line else name_line
      clean name
    else "Unknown"

/-- Claim C8 (amended): gene-code resolution follows the claim's rule —
the name comes from the first line beginning with the NAME marker, taking
the text after the first tab when a tab is present (the whole line
otherwise), then cleanup, with "Unknown" for an empty response or a
missing NAME line — but drug-code resolution instead takes the second
line of the response, regardless of any NAME marker, with "Unknown" for
an empty response or fewer than two lines. -/
theorem c8_name_resolution (response_text : String) :
    extract_gene_name response_text = marker_line_resolution clean_gene_name response_text
    ∧ extract_drug_name response_text = second_line_resolution clean_drug_name response_text := by
  constructor
  · unfold extract_gene_name marker_line_resolution
    by_cases hempty : response_text = ""
    · rw [if_pos hempty, if_pos hempty]
    · rw [if_neg hempty, if_neg hempty]
      dsimp only
      cases hfind : (pySplit (pyStrip response_text) '\n').find?
          (fun line => strStartsWith line "NAME") with
      | none => simp [hfind]
      | some l =>
        have hstarts0 := List.find?_some hfind
        have hstarts : strStartsWith l "NAME" = true := hstarts0
        have hne : l ≠ "" := fun hl => absurd (hl ▸ hstarts) (by decide)
        simp [hfind, hne]
  · rfl

/-- Counterexample to claim C8 as stated: on a three-line drug record
whose NAME line is the third line, the source's drug resolution returns
the second line's value "C6H6", not the NAME-marked "Benzene" the claim
prescribes. -/
theorem c8_counterexample :
    extract_drug_name "ENTRY\tD001\nFORMULA\tC6H6\nNAME\tBenzene"
      ≠ marker_line_resolution clean_drug_name "ENTRY\tD001\nFORMULA\tC6H6\nNAME\tBenzene" := by
  decide

/-! ## Claim C10: unconditional parse-result caching -/

theorem process_pathway_cache_hit (net : String → FetchOutcome)
    (etParse : String → Option KgmlDoc) (st : Caches) (pathway_url gene_name : String)
    (r : ParseResult)
    (hhit : load_from_disk_cache st.diskParsed
        (pathway_result_key pathway_url gene_name) "parsed" = some r) :
    process_pathway net etParse st pathway_url gene_name = (r, st, false) := by
  unfold process_pathway
  rw [hhit]

/-- Claim C10: on a parse-result cache miss, process_pathway writes its
extraction result — whatever it is, including the empty result of a failed
fetch or parse — to the durable "parsed" store, and a subsequent call with
the same (URL, gene) pair returns exactly that stored result with the
state unchanged and no fetch/parse work performed. -/
theorem c10_parse_result_caching (net : String → FetchOutcome)
    (etParse : String → Option KgmlDoc) (st : Caches) (pathway_url gene_name : String)
    (hmiss : load_from_disk_cache st.diskParsed
        (pathway_result_key pathway_url gene_name) "parsed" = none) :
    load_from_disk_cache (process_pathway net etParse st pathway_url gene_name).2.1.diskParsed
        (pathway_result_key pathway_url gene_name) "parsed"
      = some (process_pathway net etParse st pathway_url gene_name).1
    ∧ process_pathway net etParse (process_pathway net etParse st pathway_url gene_name).2.1
        pathway_url gene_name
      = ((process_pathway net etParse st pathway_url gene_name).1,
         (process_pathway net etParse st pathway_url gene_name).2.1, false) := by
  have hstored : load_from_disk_cache
      (process_pathway net etParse st pathway_url gene_name).2.1.diskParsed
      (pathway_result_key pathway_url gene_name) "parsed"
      = some (process_pathway net etParse st pathway_url gene_name).1 := by
    unfold process_pathway
    rw [hmiss]
    dsimp only
    simp [load_from_disk_cache, save_to_disk_cache]
  exact ⟨hstored, process_pathway_cache_hit net etParse _ pathway_url gene_name _ hstored⟩

/-- Network double that always times out, for the C10 witness. -/
def failNet : String → FetchOutcome :=
  fun _ => FetchOutcome.timeout

/-- Witness for C10: with a timing-out network and a failing parser the
empty result is cached and returned again by the second call. -/
theorem c10_parse_result_caching_witness :
    load_from_disk_cache
        (process_pathway failNet (fun _ => none) emptyCaches "u" "hsa:1").2.1.diskParsed
        (pathway_result_key "u" "hsa:1") "parsed"
      = some emptyParse
    ∧ process_pathway failNet (fun _ => none)
        (process_pathway failNet (fun _ => none) emptyCaches "u" "hsa:1").2.1 "u" "hsa:1"
      = (emptyParse,
         (process_pathway failNet (fun _ => none) emptyCaches "u" "hsa:1").2.1, false) := by
  have h := c10_parse_result_caching failNet (fun _ => none) emptyCaches "u" "hsa:1" rfl
  have hres : (process_pathway failNet (fun _ => none) emptyCaches "u" "hsa:1").1
      = emptyParse := rfl
  rw [hres] at h
  exact h

end Pulihack
